import Mathlib

/-!
# Verification of the Hireonova scraping script (`main.py`)

A shallow embedding of the crawl/extraction pipeline of
`Hireonova_Scrapping_Script/src/main.py` together with proofs about it.

Conventions of the embedding:
* Python `Optional[str]` values become `Option String`; Python truthiness of
  such a value (`if x:`) is `pyStr` below (`None` and `""` are falsy).
* Library collaborators (`urllib.parse`, `BeautifulSoup`, the network, the
  OLLama service, Selenium) are modelled: `urlparse`/`urljoin` are executable
  models of `urllib.parse` for the absolute `scheme://netloc/...` URLs the
  script handles (dot segments are not normalised; the script's inputs in the
  claims use rooted or absolute references); BeautifulSoup parses are an
  abstract `Html` value holding the selector results and anchor hrefs in
  document order; network results are oracle functions in an `Env`.
* `datetime` values are modelled as epoch seconds (`Int`); `datetime.now()`
  is the `now` parameter.
-/

namespace JobScraper

/-- Python truthiness of an `Optional[str]`: `None` and `""` are falsy. -/
def pyStr : Option String → Bool
  | none => false
  | some s => s != ""

/-- `pat` occurs as a contiguous subsequence of `cs`. -/
def listContainsSeq (pat : List Char) : List Char → Bool
  | [] => pat.isEmpty
  | c :: rest => pat.isPrefixOf (c :: rest) || listContainsSeq pat rest

/-- `pat` occurs as a substring of `s` (models Python `pat in s`). -/
def hasSubstr (s pat : String) : Bool :=
  listContainsSeq pat.toList s.toList

/-- `pat` is a prefix of `s` (models Python `s.startswith(pat)`), on code
points. -/
def startsWithStr (s pat : String) : Bool :=
  pat.toList.isPrefixOf s.toList

/-- The first `n` code points of `s` (models Python `s[:n]`). -/
def strTake (s : String) (n : Nat) : String :=
  String.mk (s.toList.take n)

/-- Code-point lowercasing (models Python `s.lower()` for ASCII). -/
def strToLower (s : String) : String :=
  String.mk (s.toList.map Char.toLower)

/-- Split `cs` at the first occurrence of `sep`, when there is one. -/
def splitOnceAux (sep : List Char) : List Char → Option (List Char × List Char)
  | [] => none
  | c :: rest =>
      if sep.isPrefixOf (c :: rest) then some ([], (c :: rest).drop sep.length)
      else
        match splitOnceAux sep rest with
        | some (pre, post) => some (c :: pre, post)
        | none => none

/-- Split `s` at the first occurrence of `sep`: the part before it and,
when `sep` occurs, the part after it. -/
def splitOnce (s sep : String) : String × Option String :=
  match splitOnceAux sep.toList s.toList with
  | some (pre, post) => (String.mk pre, some (String.mk post))
  | none => (s, none)

/-- Split off the authority of `s` (everything up to the first
`/`, `?` or `#`), returning `(netloc, remainder)`. -/
def splitNetloc (s : String) : String × String :=
  let cs := s.toList
  let keep := fun c : Char => !(c == '/' || c == '?' || c == '#')
  (String.mk (cs.takeWhile keep), String.mk (cs.dropWhile keep))

/-- The result of `urllib.parse.urlparse`, restricted to the components the
script reads (`scheme`, `netloc`, `path`, `query`, `fragment`). -/
structure UrlParts where
  scheme : String
  netloc : String
  path : String
  query : String
  fragment : String
deriving Repr, DecidableEq

/-- Model of `urllib.parse.urlparse`.  A string with `://` is split into
scheme, authority and path/query/fragment; anything else is treated as a
bare path/query/fragment with empty scheme and netloc (as `urlparse` does
for the relative references the script feeds it). -/
def urlparse (s : String) : UrlParts :=
  match splitOnce s "://" with
  | (schemePart, some rest) =>
      let (netloc, pqf) := splitNetloc rest
      let (pq, frag) := splitOnce pqf "#"
      let (path, query) := splitOnce pq "?"
      ⟨schemePart, netloc, path, query.getD "", frag.getD ""⟩
  | (_, none) =>
      let (pq, frag) := splitOnce s "#"
      let (path, query) := splitOnce pq "?"
      ⟨"", "", path, query.getD "", frag.getD ""⟩

/-- The base path up to and including its last `/` (`"/"` when the path has
none), used for resolving non-rooted relative references. -/
def dirname (p : String) : String :=
  let cs := (p.toList.reverse.dropWhile (fun c => c != '/')).reverse
  if cs.isEmpty then "/" else String.mk cs

/-- Model of `urllib.parse.urljoin` for the script's uses: an empty
reference keeps the base, a reference carrying `://` is absolute, a
`//`-reference keeps the base scheme, a rooted reference replaces the path,
a `?`/`#` reference replaces query/fragment, and any other reference is
resolved against the directory of the base path (dot segments are not
normalised). -/
def urljoin (base rel : String) : String :=
  if rel = "" then base
  else if hasSubstr rel "://" then rel
  else if startsWithStr rel "//" then (urlparse base).scheme ++ ":" ++ rel
  else
    let b := urlparse base
    if startsWithStr rel "/" then b.scheme ++ "://" ++ b.netloc ++ rel
    else if startsWithStr rel "#" then
      b.scheme ++ "://" ++ b.netloc ++ b.path
        ++ (if b.query != "" then "?" ++ b.query else "") ++ rel
    else if startsWithStr rel "?" then b.scheme ++ "://" ++ b.netloc ++ b.path ++ rel
    else b.scheme ++ "://" ++ b.netloc ++ dirname b.path ++ rel

/-! ## Date parsing (`parse_date_string`, lines 124-157) -/

def isLeap (y : Nat) : Bool :=
  (y % 4 == 0 && y % 100 != 0) || y % 400 == 0

def daysInMonth (y m : Nat) : Nat :=
  if m == 2 then (if isLeap y then 29 else 28)
  else if m == 4 || m == 6 || m == 9 || m == 11 then 30
  else 31

/-- Days from the civil epoch 1970-01-01 (Hinnant's algorithm). -/
def daysFromCivil (y : Int) (m d : Nat) : Int :=
  let y' : Int := if m ≤ 2 then y - 1 else y
  let era : Int := (if y' ≥ 0 then y' else y' - 399) / 400
  let yoe : Int := y' - era * 400
  let mp : Int := (Int.ofNat m + 9) % 12
  let doy : Int := (153 * mp + 2) / 5 + Int.ofNat d - 1
  let doe : Int := yoe * 365 + yoe / 4 - yoe / 100 + doy
  era * 146097 + doe - 719468

/-- Midnight of a calendar date as epoch seconds (the value
`datetime.strptime` produces for a pure date). -/
def mkTimestamp (y m d : Nat) : Int :=
  daysFromCivil (Int.ofNat y) m d * 86400

def digitsToNat (cs : List Char) : Nat :=
  cs.foldl (fun a c => a * 10 + (c.toNat - 48)) 0

/-- Consume up to `maxLen` leading digits (at least one).  Models the
`%m`/`%d` directives of CPython's `strptime` (used with `maxLen = 2`):
their compiled regexes match one or two digits with the value classes
baked in, and for the five formats of line 131 — where each numeric field
is followed by a delimiter, never by a digit — greedy consumption of up to
two digits followed by the range validation of `validDate` yields the same
accept/reject outcome (regex backtracking to a single digit would leave
the second digit facing a delimiter and fail). -/
def parseNatUpTo (maxLen : Nat) (cs : List Char) : Option (Nat × List Char) :=
  let ds := (cs.takeWhile Char.isDigit).take maxLen
  if ds.isEmpty then none else some (digitsToNat ds, cs.drop ds.length)

/-- Consume exactly four digits, as CPython's `strptime` directive `%Y`
(compiled to the regex `\d\d\d\d`) does: a one-to-three-digit year makes
the whole format fail. -/
def parseYear4 (cs : List Char) : Option (Nat × List Char) :=
  match cs with
  | a :: b :: c :: d :: rest =>
      if a.isDigit && b.isDigit && c.isDigit && d.isDigit then
        some (digitsToNat [a, b, c, d], rest)
      else none
  | _ => none

/-- Consume one literal character, case-insensitively (as `strptime` does). -/
def expectChar (c : Char) (cs : List Char) : Option (List Char) :=
  match cs with
  | [] => none
  | x :: rest => if x.toLower == c then some rest else none

/-- Consume one-or-more whitespace (a whitespace run in a `strptime`
format matches one or more). -/
def skipWs1 (cs : List Char) : Option (List Char) :=
  match cs with
  | [] => none
  | c :: rest => if c.isWhitespace then some (rest.dropWhile Char.isWhitespace) else none

def monthNames : List String :=
  ["january", "february", "march", "april", "may", "june",
   "july", "august", "september", "october", "november", "december"]

/-- Consume a full month name (`%B`), case-insensitively, returning its
1-based number. -/
def parseMonthName (cs : List Char) : Option (Nat × List Char) :=
  let low := cs.map Char.toLower
  (List.range 12).findSome? fun i =>
    match monthNames[i]? with
    | some name =>
        if name.toList.isPrefixOf low then
          some (i + 1, cs.drop name.length)
        else none
    | none => none

/-- The calendar validation `datetime` applies to a parsed date. -/
def validDate (y m d : Nat) : Bool :=
  1 ≤ y && y ≤ 9999 && 1 ≤ m && m ≤ 12 && 1 ≤ d && d ≤ daysInMonth y m

def finishDate (y m d : Nat) (cs : List Char) : Option (Nat × Nat × Nat) :=
  if cs.isEmpty && validDate y m d then some (y, m, d) else none

/-- `strptime(s, "%Y-%m-%d")`. -/
def fmtYmd (s : String) : Option (Nat × Nat × Nat) := do
  let cs := s.toList
  let (y, cs) ← parseYear4 cs
  let cs ← expectChar '-' cs
  let (m, cs) ← parseNatUpTo 2 cs
  let cs ← expectChar '-' cs
  let (d, cs) ← parseNatUpTo 2 cs
  finishDate y m d cs

/-- `strptime(s, "%B %d, %Y")`. -/
def fmtBdY (s : String) : Option (Nat × Nat × Nat) := do
  let cs := s.toList
  let (m, cs) ← parseMonthName cs
  let cs ← skipWs1 cs
  let (d, cs) ← parseNatUpTo 2 cs
  let cs ← expectChar ',' cs
  let cs ← skipWs1 cs
  let (y, cs) ← parseYear4 cs
  finishDate y m d cs

/-- `strptime(s, "%d %B %Y")`. -/
def fmtDBY (s : String) : Option (Nat × Nat × Nat) := do
  let cs := s.toList
  let (d, cs) ← parseNatUpTo 2 cs
  let cs ← skipWs1 cs
  let (m, cs) ← parseMonthName cs
  let cs ← skipWs1 cs
  let (y, cs) ← parseYear4 cs
  finishDate y m d cs

/-- `strptime(s, "%m/%d/%Y")`. -/
def fmtMdY (s : String) : Option (Nat × Nat × Nat) := do
  let cs := s.toList
  let (m, cs) ← parseNatUpTo 2 cs
  let cs ← expectChar '/' cs
  let (d, cs) ← parseNatUpTo 2 cs
  let cs ← expectChar '/' cs
  let (y, cs) ← parseYear4 cs
  finishDate y m d cs

/-- `strptime(s, "%d/%m/%Y")`. -/
def fmtDmY (s : String) : Option (Nat × Nat × Nat) := do
  let cs := s.toList
  let (d, cs) ← parseNatUpTo 2 cs
  let cs ← expectChar '/' cs
  let (m, cs) ← parseNatUpTo 2 cs
  let cs ← expectChar '/' cs
  let (y, cs) ← parseYear4 cs
  finishDate y m d cs

/-- The fixed format list of `parse_date_string` (line 131), tried in order;
the first successful parse wins. -/
def tryAbsoluteFormats (s : String) : Option Int :=
  ([fmtYmd, fmtBdY, fmtDBY, fmtMdY, fmtDmY].findSome? fun f => f s).map
    fun t => mkTimestamp t.1 t.2.1 t.2.2

def relUnits : List String := ["day", "hour", "week", "month", "year"]

/-- Try to match `(\d+)\s+(day|hour|week|month|year)s?\s+ago` starting
exactly at the head of `cs` (already lowercased). -/
def matchRelAt (cs : List Char) : Option (Nat × String) :=
  let ds := cs.takeWhile Char.isDigit
  if ds.isEmpty then none
  else
    match skipWs1 (cs.drop ds.length) with
    | none => none
    | some cs1 =>
        relUnits.findSome? fun unit =>
          if unit.toList.isPrefixOf cs1 then
            let cs2 := cs1.drop unit.length
            let cs3 := match cs2 with
              | 's' :: rest => rest
              | _ => cs2
            match skipWs1 cs3 with
            | none => none
            | some cs4 =>
                if "ago".toList.isPrefixOf cs4 then some (digitsToNat ds, unit) else none
          else none

/-- `re.search` of the relative-date pattern: try every start position,
leftmost match wins. -/
def searchRel (cs : List Char) : Option (Nat × String) :=
  match cs with
  | [] => none
  | _ :: rest =>
      match matchRelAt cs with
      | some r => some r
      | none => searchRel rest

/-- `parse_date_string` (lines 124-157): empty input is no date; the fixed
absolute formats are tried in order; otherwise the relative
`"<N> <unit> ago"` pattern is searched for and computed as `now` minus the
amount (month ≈ 30 days, year ≈ 365 days); otherwise no date.  The Python
function never raises (every failure path returns `None`); this model is a
total function. -/
def parse_date_string (now : Int) (dateStr : String) : Option Int :=
  if dateStr = "" then none
  else
    match tryAbsoluteFormats dateStr with
    | some t => some t
    | none =>
        match searchRel (dateStr.toList.map Char.toLower) with
        | some (num, unit) =>
            if unit = "day" then some (now - num * 86400)
            else if unit = "hour" then some (now - num * 3600)
            else if unit = "week" then some (now - num * 604800)
            else if unit = "month" then some (now - num * 30 * 86400)
            else if unit = "year" then some (now - num * 365 * 86400)
            else none
        | none => none

/-! ## Data model -/

/-- A BeautifulSoup element, restricted to what the script reads:
`get_text(strip=True)`, `get_text(separator='\n', strip=True)`,
and the `href`/`src` attributes. -/
structure Elem where
  textStrip : String
  textSepStrip : String
  href : Option String
  src : Option String

/-- A parsed page (`BeautifulSoup(html, 'html.parser')`), abstracted to
the operations the script performs: `select_one` on a CSS selector, and
the `href` values of all `<a href>` tags in document order
(`soup.find_all('a', href=True)`). -/
structure Html where
  select_one : String → Option Elem
  anchors : List String

/-- The `extracted_data` dict of `_parse_job_page` (lines 360-367):
every field starts as `None`. `date_posted` is an epoch timestamp. -/
structure JobData where
  job_title : Option String
  job_description : Option String
  job_location : Option String
  apply_url : Option String
  company_image : Option String
  date_posted : Option Int
deriving Repr, DecidableEq

/-- The JSON object parsed from the oracle's reply (line 105), before the
post-processing of `get_job_details_with_ollama`; `date_posted` is still a
raw string here.  A falsy (empty/null) field is `none`. -/
structure OllamaRaw where
  job_title : Option String
  job_description : Option String
  job_location : Option String
  apply_url : Option String
  company_image : Option String
  date_posted : Option String
deriving Repr, DecidableEq

/-- The oracle guess after post-processing (what
`get_job_details_with_ollama` returns on success). -/
structure OllamaData where
  job_title : Option String
  job_description : Option String
  job_location : Option String
  apply_url : Option String
  company_image : Option String
  date_posted : Option Int
deriving Repr, DecidableEq

/-- The empty dict `{}` the oracle call returns on any failure. -/
def emptyOllama : OllamaData := ⟨none, none, none, none, none, none⟩

/-- Post-processing of the oracle's parsed JSON (lines 107-115): a truthy
`apply_url` that starts with neither `http://` nor `https://` is resolved
against the page URL; a truthy `date_posted` string is parsed by
`parse_date_string` (yielding `None` when unparseable). -/
def processOllama (now : Int) (url : String) (raw : OllamaRaw) : OllamaData where
  job_title := raw.job_title
  job_description := raw.job_description
  job_location := raw.job_location
  apply_url :=
    match raw.apply_url with
    | some a =>
        if a ≠ "" ∧ ¬ (startsWithStr a "http://" ∨ startsWithStr a "https://") then
          some (urljoin url a)
        else some a
    | none => none
  company_image := raw.company_image
  date_posted :=
    match raw.date_posted with
    | some ds => if ds ≠ "" then parse_date_string now ds else none
    | none => none

/-- Per-invocation outcomes of the two retrieval tiers for one URL:
the result of the `requests` attempt, and the result of the `n`-th
Selenium attempt within this `_fetch_page` call. -/
structure FetchEnv where
  requestsResult : Option String
  seleniumResult : Nat → Option String

/-- The environment of external collaborators: the HTML parser, the oracle
transport (`none` means any failure — network error, bad structure, bad
JSON — which the script turns into `{}`), the clock, the per-URL fetch
outcomes, the Selenium flag, and the ingestion endpoint. -/
structure Env where
  soup : String → Html
  ollamaRaw : String → String → Option OllamaRaw
  now : Int
  fetchEnv : String → FetchEnv
  useSelenium : Bool
  push : JobData → Bool

/-- `get_job_details_with_ollama` (lines 60-122): the prompt carries the
markup truncated to 8000 characters; any failure yields `{}`; a parsed
reply is post-processed by `processOllama`. -/
def get_job_details_with_ollama (env : Env) (htmlContent url : String) : OllamaData :=
  match env.ollamaRaw (strTake htmlContent 8000) url with
  | none => emptyOllama
  | some raw => processOllama env.now url raw

/-! ## Page Source Adapter (`_fetch_page`, lines 308-328) -/

/-- Lines 312-318 of `_fetch_page`: try `requests` first; if its result is
falsy and Selenium is enabled, fall back to Selenium.  The second
component counts Selenium (rendered-tier) attempts, instrumentation for
the escalation claims. -/
def fetch_stage1 (fe : FetchEnv) (useSelenium : Bool) : Option String × Nat :=
  if !pyStr fe.requestsResult && useSelenium then (fe.seleniumResult 0, 1)
  else (fe.requestsResult, 0)

/-- Lines 320-326 of `_fetch_page`: when the current content is truthy,
Selenium is enabled, and the content looks JS-heavy (< 1000 characters or
contains `"loading"` lowercased), retry with Selenium and keep that result
when it is truthy and strictly longer. -/
def fetch_retry (fe : FetchEnv) (useSelenium : Bool) : Option String × Nat → Option String × Nat
  | (some h, n1) =>
      if h ≠ "" && useSelenium then
        if h.length < 1000 || hasSubstr (strToLower h) "loading" then
          match fe.seleniumResult n1 with
          | some sc =>
              if sc ≠ "" && sc.length > h.length then (some sc, n1 + 1)
              else (some h, n1 + 1)
          | none => (some h, n1 + 1)
        else (some h, n1)
      else (some h, n1)
  | (none, n1) => (none, n1)

/-- `_fetch_page` (lines 308-328), with the number of Selenium attempts
made in the second component. -/
def fetch_page (fe : FetchEnv) (useSelenium : Bool) : Option String × Nat :=
  fetch_retry fe useSelenium (fetch_stage1 fe useSelenium)

/-- The fetch result the crawl loop observes for a URL. -/
def fetch_page_full (env : Env) (url : String) : Option String :=
  (fetch_page (env.fetchEnv url) env.useSelenium).1

/-! ## Field Extractor (`_parse_job_page`, lines 356-456) -/

def title_selectors : List String :=
  ["h1[class*=\"title\"]", "h1[class*=\"job\"]", "h1[class*=\"position\"]",
   "h2[class*=\"title\"]", "h2[class*=\"job\"]", "h2[class*=\"position\"]",
   ".job-title", ".position-title", ".title", "h1", "h2"]

def desc_selectors : List String :=
  ["[class*=\"description\"]", "[class*=\"job-description\"]", "[class*=\"content\"]",
   "[class*=\"details\"]", "[class*=\"requirements\"]", ".description", ".job-content"]

def location_selectors : List String :=
  ["[class*=\"location\"]", "[class*=\"address\"]", "[class*=\"remote\"]",
   ".location", ".job-location", ".address"]

def apply_selectors : List String :=
  ["a[href*=\"apply\"]", "a[class*=\"apply\"]", "a[class*=\"button\"]",
   ".apply-btn", ".apply-link", ".job-apply"]

def img_selectors : List String :=
  ["img[src*=\"logo\"]", "img[class*=\"logo\"]", "img[class*=\"company\"]",
   ".company-logo img", ".logo img"]

/-- First selector whose element exists and has non-empty stripped text
(the title/location loops, lines 376-380 and 402-406). -/
def selectFirstText (h : Html) (sels : List String) : Option String :=
  sels.findSome? fun sel =>
    match h.select_one sel with
    | some e => if e.textStrip ≠ "" then some e.textStrip else none
    | none => none

/-- First selector whose element yields text longer than 100 characters,
truncated to 2000 (the description loop, lines 388-394). -/
def selectFirstDesc (h : Html) (sels : List String) : Option String :=
  sels.findSome? fun sel =>
    match h.select_one sel with
    | some e =>
        let t := e.textSepStrip
        if t.length > 100 then some (strTake t 2000) else none
    | none => none

/-- First selector whose element has a truthy `href`, resolved against the
page URL (the apply-URL loop, lines 414-418). -/
def selectFirstHref (h : Html) (url : String) (sels : List String) : Option String :=
  sels.findSome? fun sel =>
    match h.select_one sel with
    | some e =>
        match e.href with
        | some hr => if hr ≠ "" then some (urljoin url hr) else none
        | none => none
    | none => none

/-- First selector whose element has a truthy `src`, resolved against the
page URL (the company-image loop, lines 430-434). -/
def selectFirstSrc (h : Html) (url : String) (sels : List String) : Option String :=
  sels.findSome? fun sel =>
    match h.select_one sel with
    | some e =>
        match e.src with
        | some sr => if sr ≠ "" then some (urljoin url sr) else none
        | none => none
    | none => none

/-- The merge loop, lines 447-449: for each key, take the oracle value
only when the current value is falsy and the oracle value is truthy. -/
def mergeField (cur guess : Option String) : Option String :=
  if !pyStr cur && pyStr guess then guess else cur

/-- Merge of the oracle guess into the structural extraction
(`_parse_job_page`, lines 447-449).  A `datetime` is always truthy, so the
date merges exactly when the current date is absent and the guess present. -/
def mergeJob (d : JobData) (o : OllamaData) : JobData where
  job_title := mergeField d.job_title o.job_title
  job_description := mergeField d.job_description o.job_description
  job_location := mergeField d.job_location o.job_location
  apply_url := mergeField d.apply_url o.apply_url
  company_image := mergeField d.company_image o.company_image
  date_posted := if d.date_posted.isNone && o.date_posted.isSome then o.date_posted else d.date_posted

/-- The structural (heuristic) pass of `_parse_job_page` (lines 360-434):
each field from its selector cascade; the apply URL defaults to the page
URL when no apply link was found (lines 421-422); `date_posted` is never
set structurally. -/
def structural_extract (h : Html) (url : String) : JobData where
  job_title := selectFirstText h title_selectors
  job_description := selectFirstDesc h desc_selectors
  job_location := selectFirstText h location_selectors
  apply_url := some ((selectFirstHref h url apply_selectors).getD url)
  company_image := selectFirstSrc h url img_selectors
  date_posted := none

/-- `mandatory_missing` (lines 437-441): one of title, description,
location is falsy after the structural pass. -/
def mandatory_missing (d : JobData) : Bool :=
  !(pyStr d.job_title && pyStr d.job_description && pyStr d.job_location)

/-- The record after the structural pass and the conditional oracle merge
(lines 436-449): the oracle is invoked only when a mandatory field is
missing, and fills only falsy fields. -/
def parse_merged (env : Env) (htmlContent url : String) : JobData :=
  if mandatory_missing (structural_extract (env.soup htmlContent) url) then
    mergeJob (structural_extract (env.soup htmlContent) url)
      (get_job_details_with_ollama env htmlContent url)
  else structural_extract (env.soup htmlContent) url

/-- `_parse_job_page` (lines 356-456): the merged record, accepted only
when title and description are both truthy (lines 451-454). -/
def parse_job_page (env : Env) (htmlContent url : String) : Option JobData :=
  if pyStr (parse_merged env htmlContent url).job_title &&
      pyStr (parse_merged env htmlContent url).job_description then
    some (parse_merged env htmlContent url)
  else none

/-! ## Link Classifier (`_extract_links`, lines 330-354) -/

/-- The job-related path pattern of line 344 (`re.search`, IGNORECASE):
the path contains one of the listed substrings. -/
def job_path_pat (path : String) : Bool :=
  let p := strToLower path
  hasSubstr p "/job" || hasSubstr p "/jobs" || hasSubstr p "/careers" ||
  hasSubstr p "/apply" || hasSubstr p "/view" || hasSubstr p "/listing" ||
  hasSubstr p "/posting" || hasSubstr p "/opportunities"

/-- `key` immediately followed by a digit occurs in `cs`. -/
def hasKeyDigit (key : List Char) (cs : List Char) : Bool :=
  match cs with
  | [] => false
  | _ :: rest =>
      (key.isPrefixOf cs && ((cs.drop key.length).headD ' ').isDigit) || hasKeyDigit key rest

/-- The pagination pattern of line 348
(`page=\d+|start=\d+|offset=\d+|p=\d+`, IGNORECASE) on the query string. -/
def pagination_pat (query : String) : Bool :=
  let q := (strToLower query).toList
  hasKeyDigit "page=".toList q || hasKeyDigit "start=".toList q ||
  hasKeyDigit "offset=".toList q || hasKeyDigit "p=".toList q

/-- The keyword fallback of line 351: the lowercased full URL contains one
of the job keywords. -/
def keyword_pat (fullUrl : String) : Bool :=
  ["job", "career", "hiring", "work", "position"].any fun k => hasSubstr (strToLower fullUrl) k

/-- Admission test for one resolved link (lines 342-352): same netloc as
the base, not yet visited, and one of the three accept patterns. -/
def link_accept (visited : List String) (baseDomain fullUrl : String) : Bool :=
  let pu := urlparse fullUrl
  pu.netloc == baseDomain && !visited.contains fullUrl &&
    (job_path_pat pu.path || pagination_pat pu.query || keyword_pat fullUrl)

/-- `_extract_links` (lines 330-354): every anchor href, in document order,
resolved against the base URL, filtered by `link_accept`, first 20 kept. -/
def extract_links (h : Html) (baseUrl : String) (visited : List String) : List String :=
  let baseDomain := (urlparse baseUrl).netloc
  (((h.anchors.map fun hr => urljoin baseUrl hr).filter
      fun u => link_accept visited baseDomain u).take 20)

/-! ## Frontier Manager (`crawl`, lines 458-505) -/

/-- `self.max_pages_per_domain` (line 205). -/
def max_pages_per_domain : Nat := 30

/-- The per-domain crawl state: the frontier (`self.queue`), the visited
set (`self.visited_urls`, as a list-set), the page counter, the success
counter, and the accumulation list (`self.scraped_jobs`, which survives
across domains).  `fetched` and `pushed` are instrumentation for the
statements: the URLs popped from the frontier, and the records handed to
`push_job_to_api`, each in order. -/
structure CrawlState where
  queue : List String
  visited : List String
  pagesCrawled : Nat
  successfulJobs : Nat
  scrapedJobs : List JobData
  fetched : List String
  pushed : List JobData
deriving Repr, DecidableEq

/-- The link-admission loop (lines 495-498): each discovered link is
enqueued, and added to `visited`, only when it is not yet visited and the
frontier holds fewer than 50 entries. -/
def enqueue_links (links : List String) (s : CrawlState) : CrawlState :=
  links.foldl
    (fun t link =>
      if link ∉ t.visited ∧ t.queue.length < 50 then
        { t with visited := link :: t.visited, queue := t.queue ++ [link] }
      else t)
    s

/-- Dispatch of the push-and-record part on the parse outcome. -/
def record_push (env : Env) : Option JobData → CrawlState → CrawlState
  | some job, s =>
      if env.push job then
        { s with pushed := s.pushed ++ [job],
                 successfulJobs := s.successfulJobs + 1,
                 scrapedJobs := s.scrapedJobs ++ [job] }
      else { s with pushed := s.pushed ++ [job] }
  | none, s => s

/-- The push-and-record part of the loop body (lines 484-491): a parsed
record is handed to the push once (logged in `pushed`); it is appended to
the accumulation list only when the push succeeds. -/
def record_job (env : Env) (current htmlContent : String) (s : CrawlState) : CrawlState :=
  record_push env (parse_job_page env htmlContent current) s

/-- The body run on a page whose fetch produced truthy markup
(lines 482-498): parse and push, then discover and admit links. -/
def process_page (env : Env) (current htmlContent : String) (s : CrawlState) : CrawlState :=
  enqueue_links
    (extract_links (env.soup htmlContent) current (record_job env current htmlContent s).visited)
    (record_job env current htmlContent s)

/-- Dispatch of the loop body on the fetch outcome: markup that is falsy
(fetch failed or empty page) is skipped. -/
def fetch_branch (env : Env) (current : String) : Option String → CrawlState → CrawlState
  | some htmlContent, s =>
      if htmlContent ≠ "" then process_page env current htmlContent s else s
  | none, s => s

/-- The fetch-and-process part of one iteration (lines 480-498). -/
def step_body (env : Env) (current : String) (s : CrawlState) : CrawlState :=
  fetch_branch env current (fetch_page_full env current) s

/-- `pages_crawled += 1` (line 500). -/
def bump_pages (s : CrawlState) : CrawlState :=
  { s with pagesCrawled := s.pagesCrawled + 1 }

/-- One iteration of the crawl loop (lines 477-503): pop the frontier
head, fetch and process it, and increment the page counter regardless of
the fetch outcome. -/
def step (env : Env) (s : CrawlState) : CrawlState :=
  match s.queue with
  | [] => s
  | current :: rest =>
      bump_pages (step_body env current { s with queue := rest, fetched := s.fetched ++ [current] })

/-- Fueled unrolling of the `while` loop.  The guard of line 477 increments
`pagesCrawled` on every iteration, so `max_pages_per_domain - pagesCrawled`
bounds the remaining iterations; `crawlLoop_eq` below establishes that this
function satisfies exactly the loop's fixpoint equation. -/
def crawlLoopAux (env : Env) : Nat → CrawlState → CrawlState
  | 0, s => s
  | n + 1, s =>
      if s.queue ≠ [] ∧ s.pagesCrawled < max_pages_per_domain then
        crawlLoopAux env n (step env s)
      else s

/-- The `while self.queue and pages_crawled < self.max_pages_per_domain`
loop (lines 477-503). -/
def crawlLoop (env : Env) (s : CrawlState) : CrawlState :=
  crawlLoopAux env (max_pages_per_domain - s.pagesCrawled) s

/-- The per-domain state set up in lines 466-473: frontier and visited
reset to the seed, counters reset; the accumulation list is carried over. -/
def initState (startUrl : String) (jobsAcc : List JobData) : CrawlState where
  queue := [startUrl]
  visited := [startUrl]
  pagesCrawled := 0
  successfulJobs := 0
  scrapedJobs := jobsAcc
  fetched := []
  pushed := []

/-- One domain pass of `crawl` (lines 465-505). -/
def run_domain (env : Env) (startUrl : String) (jobsAcc : List JobData) : CrawlState :=
  crawlLoop env (initState startUrl jobsAcc)

/-- The whole `crawl` method: domain passes in seed order, the accumulation
list threaded through, starting from the empty list of the constructor
(line 202). -/
def crawl (env : Env) (startUrls : List String) : List JobData :=
  startUrls.foldl (fun acc u => (run_domain env u acc).scrapedJobs) []

/-! ## General lemmas -/

theorem findSome?_some_imp {α β : Type} {P : β → Prop} {f : α → Option β}
    (hf : ∀ a b, f a = some b → P b) :
    ∀ (l : List α) (b : β), l.findSome? f = some b → P b := by
  intro l
  induction l with
  | nil => intro b hb; simp at hb
  | cons a t ih =>
      intro b hb
      cases hfa : f a with
      | some c =>
          simp only [List.findSome?_cons, hfa] at hb
          have hcb : c = b := Option.some_inj.mp hb
          exact hcb ▸ hf a c hfa
      | none =>
          simp only [List.findSome?_cons, hfa] at hb
          exact ih b hb

theorem strTake_length (s : String) (n : Nat) : (strTake s n).length = min n s.length := by
  show (s.data.take n).length = min n s.length
  rw [List.length_take]
  rfl

theorem string_eq_empty_of_length {s : String} (h : s.length = 0) : s = "" := by
  cases s with
  | mk data =>
      have hd : data = [] := List.length_eq_zero.mp h
      subst hd; rfl

theorem append_ne_empty_left (a b : String) (ha : a ≠ "") : a ++ b ≠ "" := by
  intro hcon
  have hlen := congrArg String.length hcon
  rw [String.length_append] at hlen
  have h0 : ("" : String).length = 0 := rfl
  exact ha (string_eq_empty_of_length (by omega))

theorem append_ne_empty_right (a b : String) (hb : b ≠ "") : a ++ b ≠ "" := by
  intro hcon
  have hlen := congrArg String.length hcon
  rw [String.length_append] at hlen
  have h0 : ("" : String).length = 0 := rfl
  exact hb (string_eq_empty_of_length (by omega))

theorem scheme_sep_ne_empty (s : String) : s ++ "://" ≠ "" :=
  append_ne_empty_right s "://" (by decide)

theorem mergeField_keep (cur g : Option String) (h : pyStr cur = true) : mergeField cur g = cur := by
  simp [mergeField, h]

theorem selectFirstDesc_bounds (h : Html) (sels : List String) (s : String)
    (hs : selectFirstDesc h sels = some s) : 100 < s.length ∧ s.length ≤ 2000 := by
  refine findSome?_some_imp (P := fun b => 100 < b.length ∧ b.length ≤ 2000) ?_ sels s hs
  intro sel b hb
  cases he : h.select_one sel with
  | none => simp [he] at hb
  | some e =>
      simp only [he] at hb
      split at hb
      · rename_i hlen
        have hbe : strTake e.textSepStrip 2000 = b := Option.some_inj.mp hb
        subst hbe
        rw [strTake_length]
        omega
      · exact absurd hb (by simp)

theorem ne_empty_of_length_pos {s : String} (h : 0 < s.length) : s ≠ "" := by
  intro hcon
  subst hcon
  simp at h

theorem urljoin_ne_empty (base rel : String) (hb : base ≠ "") : urljoin base rel ≠ "" := by
  unfold urljoin
  split
  · exact hb
  · split
    · rename_i hne _
      exact hne
    · split
      · exact append_ne_empty_left _ _ (append_ne_empty_right _ ":" (by decide))
      · split
        · exact append_ne_empty_left _ _ (append_ne_empty_left _ _ (scheme_sep_ne_empty _))
        · split
          · exact append_ne_empty_left _ _ (append_ne_empty_left _ _
              (append_ne_empty_left _ _ (append_ne_empty_left _ _ (scheme_sep_ne_empty _))))
          · split
            · exact append_ne_empty_left _ _ (append_ne_empty_left _ _
                (append_ne_empty_left _ _ (scheme_sep_ne_empty _)))
            · exact append_ne_empty_left _ _ (append_ne_empty_left _ _
                (append_ne_empty_left _ _ (scheme_sep_ne_empty _)))

theorem selectFirstHref_ne_empty (h : Html) (url : String) (sels : List String) (hurl : url ≠ "")
    (v : String) (hv : selectFirstHref h url sels = some v) : v ≠ "" := by
  refine findSome?_some_imp (P := fun b => b ≠ "") ?_ sels v hv
  intro sel b hb
  cases he : h.select_one sel with
  | none => simp [he] at hb
  | some e =>
      simp only [he] at hb
      cases hhr : e.href with
      | none => simp [hhr] at hb
      | some hr =>
          simp only [hhr] at hb
          split at hb
          · have hbe : urljoin url hr = b := Option.some_inj.mp hb
            exact hbe ▸ urljoin_ne_empty url hr hurl
          · exact absurd hb (by simp)

/-- Any parsed record has truthy title and description (the final
validation of lines 451-454). -/
theorem parse_job_page_mandatory (env : Env) (htmlContent url : String) (d : JobData)
    (hp : parse_job_page env htmlContent url = some d) :
    pyStr d.job_title = true ∧ pyStr d.job_description = true := by
  unfold parse_job_page at hp
  split at hp
  · rename_i hcond
    have hd : parse_merged env htmlContent url = d := Option.some_inj.mp hp
    subst hd
    exact And.imp_left id (by simpa using hcond)
  · exact absurd hp (by simp)

/-! ## Crawl-loop lemmas -/

theorem enqueue_links_cons (a : String) (l : List String) (s : CrawlState) :
    enqueue_links (a :: l) s =
      enqueue_links l
        (if a ∉ s.visited ∧ s.queue.length < 50 then
          { s with visited := a :: s.visited, queue := s.queue ++ [a] }
        else s) := rfl

theorem enqueue_links_preserves (links : List String) (s : CrawlState) :
    (enqueue_links links s).pagesCrawled = s.pagesCrawled ∧
    (enqueue_links links s).fetched = s.fetched ∧
    (enqueue_links links s).scrapedJobs = s.scrapedJobs ∧
    (enqueue_links links s).pushed = s.pushed ∧
    (enqueue_links links s).successfulJobs = s.successfulJobs := by
  induction links generalizing s with
  | nil => exact ⟨rfl, rfl, rfl, rfl, rfl⟩
  | cons a l ih =>
      rw [enqueue_links_cons]
      split
      · exact ih _
      · exact ih s

theorem record_job_preserves (env : Env) (current htmlContent : String) (s : CrawlState) :
    (record_job env current htmlContent s).pagesCrawled = s.pagesCrawled ∧
    (record_job env current htmlContent s).fetched = s.fetched ∧
    (record_job env current htmlContent s).queue = s.queue ∧
    (record_job env current htmlContent s).visited = s.visited := by
  unfold record_job
  cases parse_job_page env htmlContent current with
  | none => exact ⟨rfl, rfl, rfl, rfl⟩
  | some job =>
      simp only [record_push]
      refine ⟨?_, ?_, ?_, ?_⟩ <;> (split <;> rfl)

theorem process_page_preserves (env : Env) (current htmlContent : String) (s : CrawlState) :
    (process_page env current htmlContent s).pagesCrawled = s.pagesCrawled ∧
    (process_page env current htmlContent s).fetched = s.fetched := by
  unfold process_page
  refine ⟨?_, ?_⟩
  · rw [(enqueue_links_preserves _ _).1, (record_job_preserves env current htmlContent s).1]
  · rw [(enqueue_links_preserves _ _).2.1, (record_job_preserves env current htmlContent s).2.1]

theorem step_body_preserves (env : Env) (current : String) (s : CrawlState) :
    (step_body env current s).pagesCrawled = s.pagesCrawled ∧
    (step_body env current s).fetched = s.fetched := by
  unfold step_body
  cases fetch_page_full env current with
  | none => exact ⟨rfl, rfl⟩
  | some htmlContent =>
      simp only [fetch_branch]
      constructor
      · split
        · exact (process_page_preserves env current htmlContent s).1
        · rfl
      · split
        · exact (process_page_preserves env current htmlContent s).2
        · rfl

theorem step_nil (env : Env) (s : CrawlState) (h : s.queue = []) : step env s = s := by
  unfold step
  rw [h]

theorem step_cons_eq (env : Env) (s : CrawlState) (c : String) (rest : List String)
    (h : s.queue = c :: rest) :
    step env s =
      bump_pages (step_body env c { s with queue := rest, fetched := s.fetched ++ [c] }) := by
  unfold step
  rw [h]

theorem step_cons_pages (env : Env) (s : CrawlState) (c : String) (rest : List String)
    (h : s.queue = c :: rest) :
    (step env s).pagesCrawled = s.pagesCrawled + 1 := by
  rw [step_cons_eq env s c rest h]
  show (step_body env c _).pagesCrawled + 1 = s.pagesCrawled + 1
  rw [(step_body_preserves env c _).1]

theorem step_cons_fetched (env : Env) (s : CrawlState) (c : String) (rest : List String)
    (h : s.queue = c :: rest) :
    (step env s).fetched = s.fetched ++ [c] := by
  rw [step_cons_eq env s c rest h]
  show (step_body env c _).fetched = s.fetched ++ [c]
  rw [(step_body_preserves env c _).2]

theorem step_pages (env : Env) (s : CrawlState) (h : s.queue ≠ []) :
    (step env s).pagesCrawled = s.pagesCrawled + 1 := by
  obtain ⟨c, rest, hcr⟩ := List.exists_cons_of_ne_nil h
  exact step_cons_pages env s c rest hcr

/-- The fixpoint equation of the `while` loop of lines 477-503: the fueled
unrolling `crawlLoop` is exactly the loop (it runs another iteration
precisely while the frontier is non-empty and the page budget is not
reached). -/
theorem crawlLoopAux_succ (env : Env) (k : Nat) (s : CrawlState) :
    crawlLoopAux env (k + 1) s =
      if s.queue ≠ [] ∧ s.pagesCrawled < max_pages_per_domain then
        crawlLoopAux env k (step env s)
      else s := rfl

theorem crawlLoop_eq (env : Env) (s : CrawlState) :
    crawlLoop env s =
      if s.queue ≠ [] ∧ s.pagesCrawled < max_pages_per_domain then
        crawlLoop env (step env s)
      else s := by
  unfold crawlLoop
  by_cases hg : s.queue ≠ [] ∧ s.pagesCrawled < max_pages_per_domain
  · obtain ⟨hq, hp⟩ := hg
    have h1 : max_pages_per_domain - s.pagesCrawled
        = (max_pages_per_domain - (s.pagesCrawled + 1)) + 1 := by omega
    rw [h1, crawlLoopAux_succ, if_pos ⟨hq, hp⟩, if_pos ⟨hq, hp⟩, step_pages env s hq]
  · rw [if_neg hg]
    cases hn : max_pages_per_domain - s.pagesCrawled with
    | zero => rfl
    | succ k => rw [crawlLoopAux_succ, if_neg hg]

theorem crawlLoopAux_pages_le (env : Env) :
    ∀ (n : Nat) (s : CrawlState), s.pagesCrawled ≤ max_pages_per_domain →
      (crawlLoopAux env n s).pagesCrawled ≤ max_pages_per_domain := by
  intro n
  induction n with
  | zero => intro s h; exact h
  | succ k ih =>
      intro s h
      rw [crawlLoopAux_succ]
      split
      · rename_i hg
        apply ih
        rw [step_pages env s hg.1]
        omega
      · exact h

theorem crawlLoopAux_exit (env : Env) :
    ∀ (n : Nat) (s : CrawlState), max_pages_per_domain - s.pagesCrawled ≤ n →
      (crawlLoopAux env n s).queue = [] ∨
        max_pages_per_domain ≤ (crawlLoopAux env n s).pagesCrawled := by
  intro n
  induction n with
  | zero =>
      intro s h
      right
      show max_pages_per_domain ≤ s.pagesCrawled
      omega
  | succ k ih =>
      intro s h
      rw [crawlLoopAux_succ]
      split
      · rename_i hg
        apply ih
        rw [step_pages env s hg.1]
        omega
      · rename_i hg
        rw [not_and_or, not_not, not_lt] at hg
        rcases hg with hq | hp
        · exact Or.inl hq
        · exact Or.inr hp

theorem crawlLoopAux_pages_fetched (env : Env) :
    ∀ (n : Nat) (s : CrawlState), s.pagesCrawled = s.fetched.length →
      (crawlLoopAux env n s).pagesCrawled = (crawlLoopAux env n s).fetched.length := by
  intro n
  induction n with
  | zero => intro s h; exact h
  | succ k ih =>
      intro s h
      rw [crawlLoopAux_succ]
      split
      · rename_i hg
        apply ih
        obtain ⟨c, rest, hcr⟩ := List.exists_cons_of_ne_nil hg.1
        rw [step_cons_pages env s c rest hcr, step_cons_fetched env s c rest hcr]
        simp [h]
      · exact h

/-! ## The frontier/visited discipline -/

/-- The crawl-state invariant: the URLs popped so far together with the
pending frontier are pairwise distinct, and every one of them is in
`visited` (URLs enter `visited` at enqueue time). -/
def crawlInv (s : CrawlState) : Prop :=
  (s.fetched ++ s.queue).Nodup ∧ ∀ u ∈ s.fetched ++ s.queue, u ∈ s.visited

theorem enqueue_links_inv (links : List String) (s : CrawlState) (h : crawlInv s) :
    crawlInv (enqueue_links links s) := by
  induction links generalizing s with
  | nil => exact h
  | cons a l ih =>
      rw [enqueue_links_cons]
      split
      · rename_i hc
        obtain ⟨hnv, _⟩ := hc
        obtain ⟨hnd, hsub⟩ := h
        apply ih
        constructor
        · show (s.fetched ++ (s.queue ++ [a])).Nodup
          rw [← List.append_assoc]
          have ha : a ∉ s.fetched ++ s.queue := fun hmem => hnv (hsub a hmem)
          exact hnd.append (List.nodup_singleton a)
            (fun x hx hx' => by
              rw [List.mem_singleton] at hx'
              exact ha (hx' ▸ hx))
        · intro u hu
          show u ∈ a :: s.visited
          rw [← List.append_assoc, List.mem_append] at hu
          rcases hu with hu | hu
          · exact List.mem_cons_of_mem a (hsub u hu)
          · rw [List.mem_singleton] at hu
            exact hu ▸ List.mem_cons_self a s.visited
      · exact ih s h

theorem record_job_inv (env : Env) (current htmlContent : String) (s : CrawlState)
    (h : crawlInv s) : crawlInv (record_job env current htmlContent s) := by
  obtain ⟨_, h2, h3, h4⟩ := record_job_preserves env current htmlContent s
  unfold crawlInv
  rw [h2, h3, h4]
  exact h

theorem process_page_inv (env : Env) (current htmlContent : String) (s : CrawlState)
    (h : crawlInv s) : crawlInv (process_page env current htmlContent s) := by
  unfold process_page
  exact enqueue_links_inv _ _ (record_job_inv env current htmlContent s h)

theorem step_body_inv (env : Env) (current : String) (s : CrawlState)
    (h : crawlInv s) : crawlInv (step_body env current s) := by
  unfold step_body
  cases fetch_page_full env current with
  | none => exact h
  | some htmlContent =>
      simp only [fetch_branch]
      split
      · exact process_page_inv env current htmlContent s h
      · exact h

theorem crawlInv_bump (s : CrawlState) (h : crawlInv s) : crawlInv (bump_pages s) := h

theorem pop_inv (s : CrawlState) (c : String) (rest : List String) (hq : s.queue = c :: rest)
    (h : crawlInv s) : crawlInv { s with queue := rest, fetched := s.fetched ++ [c] } := by
  have hperm : (s.fetched ++ [c]) ++ rest = s.fetched ++ s.queue := by
    rw [List.append_assoc, hq]
    rfl
  constructor
  · show ((s.fetched ++ [c]) ++ rest).Nodup
    rw [hperm]
    exact h.1
  · intro u hu
    show u ∈ s.visited
    apply h.2
    rw [← hperm]
    exact hu

/-- One loop iteration preserves the frontier/visited discipline. -/
theorem step_inv (env : Env) (s : CrawlState) (h : crawlInv s) : crawlInv (step env s) := by
  cases hq : s.queue with
  | nil => rw [step_nil env s hq]; exact h
  | cons c rest =>
      rw [step_cons_eq env s c rest hq]
      exact crawlInv_bump _ (step_body_inv env c _ (pop_inv s c rest hq h))

theorem crawlLoopAux_inv (env : Env) :
    ∀ (n : Nat) (s : CrawlState), crawlInv s → crawlInv (crawlLoopAux env n s) := by
  intro n
  induction n with
  | zero => intro s h; exact h
  | succ k ih =>
      intro s h
      rw [crawlLoopAux_succ]
      split
      · exact ih _ (step_inv env s h)
      · exact h

theorem initState_inv (startUrl : String) (jobsAcc : List JobData) :
    crawlInv (initState startUrl jobsAcc) := by
  constructor
  · show ([] ++ [startUrl]).Nodup
    exact List.nodup_singleton startUrl
  · intro u hu
    show u ∈ [startUrl]
    exact hu

/-! ## Records reaching the sink or the accumulation list -/

theorem record_push_mem (env : Env) (o : Option JobData) (s : CrawlState) :
    (∀ d ∈ (record_push env o s).scrapedJobs, d ∈ s.scrapedJobs ∨ o = some d) ∧
    (∀ d ∈ (record_push env o s).pushed, d ∈ s.pushed ∨ o = some d) := by
  cases o with
  | none => exact ⟨fun d hd => Or.inl hd, fun d hd => Or.inl hd⟩
  | some job =>
      simp only [record_push]
      constructor
      · intro d hd
        split at hd
        · show d ∈ s.scrapedJobs ∨ _
          rw [List.mem_append, List.mem_singleton] at hd
          rcases hd with hd | hd
          · exact Or.inl hd
          · exact Or.inr (by rw [hd])
        · exact Or.inl hd
      · intro d hd
        split at hd
        all_goals
          rw [List.mem_append, List.mem_singleton] at hd
          rcases hd with hd | hd
          · exact Or.inl hd
          · exact Or.inr (by rw [hd])

theorem step_body_mem (env : Env) (current : String) (s : CrawlState) :
    (∀ d ∈ (step_body env current s).scrapedJobs,
        d ∈ s.scrapedJobs ∨ ∃ hc, parse_job_page env hc current = some d) ∧
    (∀ d ∈ (step_body env current s).pushed,
        d ∈ s.pushed ∨ ∃ hc, parse_job_page env hc current = some d) := by
  unfold step_body
  cases fetch_page_full env current with
  | none => exact ⟨fun d hd => Or.inl hd, fun d hd => Or.inl hd⟩
  | some htmlContent =>
      simp only [fetch_branch]
      split
      · unfold process_page
        constructor
        · intro d hd
          rw [(enqueue_links_preserves _ _).2.2.1] at hd
          rcases (record_push_mem env _ _).1 d hd with h | h
          · exact Or.inl h
          · exact Or.inr ⟨htmlContent, h⟩
        · intro d hd
          rw [(enqueue_links_preserves _ _).2.2.2.1] at hd
          rcases (record_push_mem env _ _).2 d hd with h | h
          · exact Or.inl h
          · exact Or.inr ⟨htmlContent, h⟩
      · exact ⟨fun d hd => Or.inl hd, fun d hd => Or.inl hd⟩

theorem jobP_step (env : Env) (P : JobData → Prop)
    (hP : ∀ htmlContent url d, parse_job_page env htmlContent url = some d → P d)
    (s : CrawlState) (h1 : ∀ d ∈ s.scrapedJobs, P d) (h2 : ∀ d ∈ s.pushed, P d) :
    (∀ d ∈ (step env s).scrapedJobs, P d) ∧ (∀ d ∈ (step env s).pushed, P d) := by
  cases hq : s.queue with
  | nil => rw [step_nil env s hq]; exact ⟨h1, h2⟩
  | cons c rest =>
      rw [step_cons_eq env s c rest hq]
      have hm := step_body_mem env c { s with queue := rest, fetched := s.fetched ++ [c] }
      constructor
      · intro d hd
        rcases hm.1 d hd with h | ⟨hc, hparse⟩
        · exact h1 d h
        · exact hP hc c d hparse
      · intro d hd
        rcases hm.2 d hd with h | ⟨hc, hparse⟩
        · exact h2 d h
        · exact hP hc c d hparse

theorem crawlLoopAux_jobP (env : Env) (P : JobData → Prop)
    (hP : ∀ htmlContent url d, parse_job_page env htmlContent url = some d → P d) :
    ∀ (n : Nat) (s : CrawlState),
      (∀ d ∈ s.scrapedJobs, P d) → (∀ d ∈ s.pushed, P d) →
      (∀ d ∈ (crawlLoopAux env n s).scrapedJobs, P d) ∧
      (∀ d ∈ (crawlLoopAux env n s).pushed, P d) := by
  intro n
  induction n with
  | zero => intro s h1 h2; exact ⟨h1, h2⟩
  | succ k ih =>
      intro s h1 h2
      rw [crawlLoopAux_succ]
      split
      · obtain ⟨g1, g2⟩ := jobP_step env P hP s h1 h2
        exact ih _ g1 g2
      · exact ⟨h1, h2⟩

theorem jobP_step_pushed (env : Env) (P : JobData → Prop)
    (hP : ∀ htmlContent url d, parse_job_page env htmlContent url = some d → P d)
    (s : CrawlState) (h2 : ∀ d ∈ s.pushed, P d) :
    ∀ d ∈ (step env s).pushed, P d := by
  cases hq : s.queue with
  | nil => rw [step_nil env s hq]; exact h2
  | cons c rest =>
      rw [step_cons_eq env s c rest hq]
      intro d hd
      rcases (step_body_mem env c { s with queue := rest, fetched := s.fetched ++ [c] }).2 d hd
        with h | ⟨hc, hparse⟩
      · exact h2 d h
      · exact hP hc c d hparse

theorem crawlLoopAux_pushedP (env : Env) (P : JobData → Prop)
    (hP : ∀ htmlContent url d, parse_job_page env htmlContent url = some d → P d) :
    ∀ (n : Nat) (s : CrawlState), (∀ d ∈ s.pushed, P d) →
      ∀ d ∈ (crawlLoopAux env n s).pushed, P d := by
  intro n
  induction n with
  | zero => intro s h2; exact h2
  | succ k ih =>
      intro s h2
      rw [crawlLoopAux_succ]
      split
      · exact ih _ (jobP_step_pushed env P hP s h2)
      · exact h2

theorem run_domain_jobP (env : Env) (P : JobData → Prop)
    (hP : ∀ htmlContent url d, parse_job_page env htmlContent url = some d → P d)
    (startUrl : String) (jobsAcc : List JobData) (hacc : ∀ d ∈ jobsAcc, P d) :
    (∀ d ∈ (run_domain env startUrl jobsAcc).scrapedJobs, P d) ∧
    (∀ d ∈ (run_domain env startUrl jobsAcc).pushed, P d) := by
  unfold run_domain crawlLoop
  exact crawlLoopAux_jobP env P hP _ _ hacc (fun d hd => absurd hd (List.not_mem_nil d))

theorem crawl_jobP (env : Env) (P : JobData → Prop)
    (hP : ∀ htmlContent url d, parse_job_page env htmlContent url = some d → P d) :
    ∀ (urls : List String) (acc : List JobData), (∀ d ∈ acc, P d) →
      ∀ d ∈ urls.foldl (fun a u => (run_domain env u a).scrapedJobs) acc, P d := by
  intro urls
  induction urls with
  | nil => intro acc hacc d hd; exact hacc d hd
  | cons u t ih =>
      intro acc hacc d hd
      rw [List.foldl_cons] at hd
      exact ih _ ((run_domain_jobP env P hP u acc hacc).1) d hd

theorem run_domain_eq (env : Env) (startUrl : String) (jobsAcc : List JobData) :
    run_domain env startUrl jobsAcc
      = crawlLoopAux env max_pages_per_domain (initState startUrl jobsAcc) := rfl

/-! ## Concrete fixtures used by witnesses and counterexamples -/

/-- A 101-character description text (long enough for the structural
description filter). -/
def textD101 : String := String.mk (List.replicate 101 'd')

/-- A 2001-character description text (longer than the truncation bound). -/
def textZ2001 : String := String.mk (List.replicate 2001 'z')

def elemTitle : Elem := ⟨"Engineer", "Engineer", none, none⟩

def elemDesc : Elem := ⟨"d", textD101, none, none⟩

def elemLoc : Elem := ⟨"Remote", "Remote", none, none⟩

/-- A page with structural title, description and location, no links. -/
def pageFull : Html where
  select_one sel :=
    if sel = "h1" then some elemTitle
    else if sel = ".description" then some elemDesc
    else if sel = ".location" then some elemLoc
    else none
  anchors := []

/-- A page with structural title and description but no location and no
apply link. -/
def pageNoLoc : Html where
  select_one sel :=
    if sel = "h1" then some elemTitle
    else if sel = ".description" then some elemDesc
    else none
  anchors := []

/-- A page with only a structural title. -/
def pageTitleOnly : Html where
  select_one sel := if sel = "h1" then some elemTitle else none
  anchors := []

/-- Fetch outcomes: both tiers fail. -/
def fetchNone : FetchEnv := ⟨none, fun _ => none⟩

/-- Fetch outcomes: static succeeds with the markup `"x"`. -/
def fetchX : FetchEnv := ⟨some "x", fun _ => none⟩

/-- An environment where every fetch fails and the oracle is down. -/
def envStop : Env where
  soup _ := pageFull
  ollamaRaw _ _ := none
  now := 0
  fetchEnv _ := fetchNone
  useSelenium := false
  push _ := true

/-- An environment whose single page parses fully and whose push succeeds. -/
def envFull : Env where
  soup _ := pageFull
  ollamaRaw _ _ := none
  now := 0
  fetchEnv _ := fetchX
  useSelenium := false
  push _ := true

/-- The record extracted from `pageFull` at `https://a.com/jobs`. -/
def jobFull : JobData :=
  ⟨some "Engineer", some textD101, some "Remote", some "https://a.com/jobs", none, none⟩

/-! ## C1: the oracle's relative apply URL and the merged record -/

/-- An oracle guess carrying a location and a relative apply URL. -/
def rawApply42 : OllamaRaw := ⟨none, none, some "Remote", some "/apply/42", none, none⟩

/-- Environment for the C1 scenario: the page has structural title and
description, no location and no apply link; the oracle replies with
`rawApply42`. -/
def envNoLoc : Env where
  soup _ := pageNoLoc
  ollamaRaw _ _ := some rawApply42
  now := 0
  fetchEnv _ := fetchX
  useSelenium := false
  push _ := true

/-- The record the pipeline produces in the C1 scenario. -/
def jobNoLoc : JobData :=
  ⟨some "Engineer", some textD101, some "Remote", some "https://example.com/jobs/9", none, none⟩

/-- C1 counterexample: the structural pass finds no apply link, the oracle
guess holds the relative `/apply/42` (which the oracle post-processing does
resolve to `https://example.com/apply/42`), yet the merged record's
`apply_url` is the page URL `https://example.com/jobs/9` — because lines
421-422 default the apply URL to the page URL before the merge, and the
merge of lines 447-449 never overwrites a truthy field.  This refutes the
claim that the record ends with the oracle's resolved apply URL. -/
theorem C1_counterexample :
    selectFirstHref pageNoLoc "https://example.com/jobs/9" apply_selectors = none ∧
    (processOllama 0 "https://example.com/jobs/9" rawApply42).apply_url
      = some "https://example.com/apply/42" ∧
    parse_job_page envNoLoc "x" "https://example.com/jobs/9" = some jobNoLoc ∧
    jobNoLoc.apply_url = some "https://example.com/jobs/9" ∧
    jobNoLoc.apply_url ≠ some "https://example.com/apply/42" := by decide

/-- C1 as amended: the oracle's relative apply URL is indeed resolved
against the page URL inside the oracle post-processing (lines 107-109),
but the record produced by the extract-and-merge pipeline always carries
the structural apply URL — the page URL itself when no apply link was
found — never the oracle's, since the default of lines 421-422 fills
`apply_url` before the merge and non-empty fields are not overwritten. -/
theorem C1_apply_url_merge :
    (∀ (now : Int) (url a : String) (raw : OllamaRaw),
        raw.apply_url = some a → a ≠ "" →
        startsWithStr a "http://" = false → startsWithStr a "https://" = false →
        (processOllama now url raw).apply_url = some (urljoin url a)) ∧
    (∀ (env : Env) (htmlContent url : String) (d : JobData), url ≠ "" →
        parse_job_page env htmlContent url = some d →
        d.apply_url
          = some ((selectFirstHref (env.soup htmlContent) url apply_selectors).getD url)) := by
  constructor
  · intro now url a raw ha hne h1 h2
    show (match raw.apply_url with
        | some a' =>
            if a' ≠ "" ∧ ¬ (startsWithStr a' "http://" ∨ startsWithStr a' "https://") then
              some (urljoin url a')
            else some a'
        | none => none) = some (urljoin url a)
    rw [ha]
    have hcond : a ≠ "" ∧ ¬ (startsWithStr a "http://" = true ∨ startsWithStr a "https://" = true) :=
      ⟨hne, by simp [h1, h2]⟩
    simp only [if_pos hcond]
  · intro env htmlContent url d hurl hp
    have happne : (selectFirstHref (env.soup htmlContent) url apply_selectors).getD url ≠ "" := by
      cases hsel : selectFirstHref (env.soup htmlContent) url apply_selectors with
      | none => simpa using hurl
      | some v => simpa using selectFirstHref_ne_empty _ url _ hurl v hsel
    unfold parse_job_page at hp
    split at hp
    · have hd : parse_merged env htmlContent url = d := Option.some_inj.mp hp
      subst hd
      unfold parse_merged
      split
      · show mergeField (structural_extract (env.soup htmlContent) url).apply_url _ = _
        rw [mergeField_keep]
        · rfl
        · show pyStr (some ((selectFirstHref (env.soup htmlContent) url apply_selectors).getD url))
            = true
          simp only [pyStr, bne_iff_ne, ne_eq]
          exact happne
      · rfl
    · exact absurd hp (by simp)

/-- Witness for C1 (amended), at the C1 scenario itself: the oracle
post-processing resolves `/apply/42`, and the merged record carries the
structural default. -/
theorem C1_apply_url_merge_witness :
    (processOllama 0 "https://example.com/jobs/9" rawApply42).apply_url
      = some (urljoin "https://example.com/jobs/9" "/apply/42") ∧
    jobNoLoc.apply_url
      = some ((selectFirstHref (envNoLoc.soup "x") "https://example.com/jobs/9"
          apply_selectors).getD "https://example.com/jobs/9") :=
  ⟨C1_apply_url_merge.1 0 "https://example.com/jobs/9" "/apply/42" rawApply42
      (by decide) (by decide) (by decide) (by decide),
   C1_apply_url_merge.2 envNoLoc "x" "https://example.com/jobs/9" jobNoLoc
      (by decide) (by decide)⟩

/-! ## C2: no record with empty title or description is emitted -/

/-- C2: extraction returns `none` whenever title or description is still
falsy after both passes; consequently every record in the accumulation
list after a whole crawl, and every record handed to the push during a
domain pass, has non-empty title and description. -/
theorem C2_mandatory_nonempty :
    (∀ (env : Env) (htmlContent url : String) (d : JobData),
        parse_job_page env htmlContent url = some d →
        pyStr d.job_title = true ∧ pyStr d.job_description = true) ∧
    (∀ (env : Env) (urls : List String) (d : JobData), d ∈ crawl env urls →
        pyStr d.job_title = true ∧ pyStr d.job_description = true) ∧
    (∀ (env : Env) (startUrl : String) (jobsAcc : List JobData) (d : JobData),
        d ∈ (run_domain env startUrl jobsAcc).pushed →
        pyStr d.job_title = true ∧ pyStr d.job_description = true) := by
  refine ⟨parse_job_page_mandatory, ?_, ?_⟩
  · intro env urls d hd
    exact crawl_jobP env _ (fun hc u e hp => parse_job_page_mandatory env hc u e hp)
      urls [] (by simp) d hd
  · intro env startUrl jobsAcc d hd
    unfold run_domain crawlLoop at hd
    exact crawlLoopAux_pushedP env _ (fun hc u e hp => parse_job_page_mandatory env hc u e hp)
      _ _ (fun e he => absurd he (List.not_mem_nil e)) d hd

/-- Witness for C2 at a concrete parsed page. -/
theorem C2_mandatory_nonempty_witness :
    parse_job_page envFull "x" "https://a.com/jobs" = some jobFull ∧
    pyStr jobFull.job_title = true ∧ pyStr jobFull.job_description = true :=
  ⟨by decide, C2_mandatory_nonempty.1 envFull "x" "https://a.com/jobs" jobFull (by decide)⟩

/-! ## C5: the description bound holds only for the structural pass -/

/-- An environment whose page has only a structural title and whose oracle
returns a 2001-character description. -/
def envLongDesc : Env where
  soup _ := pageTitleOnly
  ollamaRaw _ _ := some ⟨none, some textZ2001, none, none, none, none⟩
  now := 0
  fetchEnv _ := fetchX
  useSelenium := false
  push _ := true

/-- The record the pipeline produces in the C5 scenario. -/
def jobLong : JobData :=
  ⟨some "Engineer", some textZ2001, none, some "https://a.com/job/1", none, none⟩

theorem textZ2001_length : textZ2001.length = 2001 := by
  show (List.replicate 2001 'z').length = 2001
  rw [List.length_replicate]

theorem textZ2001_ne : textZ2001 ≠ "" :=
  ne_empty_of_length_pos (by rw [textZ2001_length]; omega)

theorem parse_longDesc :
    parse_job_page envLongDesc "x" "https://a.com/job/1" = some jobLong := by
  have hbne : (textZ2001 != "") = true := bne_iff_ne.mpr textZ2001_ne
  have horacle : get_job_details_with_ollama envLongDesc "x" "https://a.com/job/1"
      = ⟨none, some textZ2001, none, none, none, none⟩ := rfl
  have hstruct : structural_extract (envLongDesc.soup "x") "https://a.com/job/1"
      = ⟨some "Engineer", none, none, some "https://a.com/job/1", none, none⟩ := by decide
  have hmm : mandatory_missing (structural_extract (envLongDesc.soup "x") "https://a.com/job/1")
      = true := by rw [hstruct]; decide
  have h2 : mergeField none (some textZ2001) = some textZ2001 := by
    unfold mergeField
    rw [if_pos]
    show (!pyStr none && pyStr (some textZ2001)) = true
    simp [pyStr, hbne]
  have hmerged : parse_merged envLongDesc "x" "https://a.com/job/1" = jobLong := by
    unfold parse_merged
    rw [if_pos hmm, hstruct, horacle]
    unfold mergeJob jobLong
    rw [JobData.mk.injEq]
    exact ⟨by decide, h2, by decide, by decide, by decide, by decide⟩
  have hpm : (pyStr jobLong.job_title && pyStr jobLong.job_description) = true := by
    show (("Engineer" != "") && (textZ2001 != "")) = true
    rw [hbne]
    decide
  unfold parse_job_page
  rw [hmerged, if_pos hpm]

theorem step_scraped_longDesc :
    (step envLongDesc (initState "https://a.com/job/1" [])).scrapedJobs = [jobLong] := by
  rw [step_cons_eq envLongDesc _ "https://a.com/job/1" [] rfl]
  show (step_body envLongDesc "https://a.com/job/1" _).scrapedJobs = [jobLong]
  unfold step_body
  rw [show fetch_page_full envLongDesc "https://a.com/job/1" = some "x" from by decide]
  simp only [fetch_branch]
  rw [if_pos (show "x" ≠ "" by decide)]
  unfold process_page
  rw [(enqueue_links_preserves _ _).2.2.1]
  unfold record_job
  rw [parse_longDesc]
  simp only [record_push]
  rw [if_pos (show envLongDesc.push jobLong = true from rfl)]
  rfl

/-- C5 counterexample: a record whose description came from the oracle
fallback is emitted — and appended to the accumulation list by the loop
iteration — with a 2001-character description: the truncation of line 393
applies only to the structural pass, and the merge of lines 447-449 copies
the oracle description verbatim.  This refutes "length never exceeds 2000
... regardless of whether the description came from the structural pass or
from the oracle fallback". -/
theorem C5_counterexample :
    parse_job_page envLongDesc "x" "https://a.com/job/1" = some jobLong ∧
    (step envLongDesc (initState "https://a.com/job/1" [])).scrapedJobs = [jobLong] ∧
    jobLong.job_description = some textZ2001 ∧
    2000 < textZ2001.length := by
  refine ⟨parse_longDesc, step_scraped_longDesc, rfl, ?_⟩
  rw [textZ2001_length]
  omega

/-- C5 as amended: a description produced by the structural pass is always
longer than 100 characters and truncated to at most 2000; whenever the
structural pass produced a description, the emitted record carries exactly
it, hence within the bound.  (A description filled from the oracle
fallback is not truncated and may exceed 2000 characters, as the
counterexample shows.) -/
theorem C5_description_bound :
    (∀ (h : Html) (s : String), selectFirstDesc h desc_selectors = some s →
        100 < s.length ∧ s.length ≤ 2000) ∧
    (∀ (env : Env) (htmlContent url : String) (d : JobData) (s : String),
        parse_job_page env htmlContent url = some d →
        selectFirstDesc (env.soup htmlContent) desc_selectors = some s →
        d.job_description = some s ∧ s.length ≤ 2000) := by
  constructor
  · intro h s hs
    exact selectFirstDesc_bounds h desc_selectors s hs
  · intro env htmlContent url d s hp hsel
    have hb := selectFirstDesc_bounds (env.soup htmlContent) desc_selectors s hsel
    refine ⟨?_, hb.2⟩
    unfold parse_job_page at hp
    split at hp
    · have hd : parse_merged env htmlContent url = d := Option.some_inj.mp hp
      subst hd
      unfold parse_merged
      split
      · show mergeField (structural_extract (env.soup htmlContent) url).job_description _
          = some s
        have hfield : (structural_extract (env.soup htmlContent) url).job_description = some s :=
          hsel
        rw [hfield, mergeField_keep]
        simp only [pyStr, bne_iff_ne, ne_eq]
        exact ne_empty_of_length_pos (by omega)
      · exact hsel
    · exact absurd hp (by simp)

/-- Witness for C5 (amended) at a page with a structural description. -/
theorem C5_description_bound_witness :
    parse_job_page envFull "x" "https://a.com/jobs" = some jobFull ∧
    selectFirstDesc pageFull desc_selectors = some textD101 ∧
    (jobFull.job_description = some textD101 ∧ textD101.length ≤ 2000) :=
  ⟨by decide, by decide,
   C5_description_bound.2 envFull "x" "https://a.com/jobs" jobFull textD101
     (by decide) (by decide)⟩

/-! ## C4: escalation from static to rendered retrieval -/

theorem fetch_stage1_le (fe : FetchEnv) (useSel : Bool) : (fetch_stage1 fe useSel).2 ≤ 1 := by
  unfold fetch_stage1
  split <;> simp

theorem fetch_retry_le (fe : FetchEnv) (useSel : Bool) (o : Option String) (n : Nat) :
    (fetch_retry fe useSel (o, n)).2 ≤ n + 1 := by
  cases o with
  | none => simp [fetch_retry]
  | some h =>
      simp only [fetch_retry]
      split
      · split
        · cases fe.seleniumResult n with
          | none => simp
          | some sc => split <;> (try split) <;> simp
        · simp
      · simp

theorem fetch_retry_noSel (fe : FetchEnv) (o : Option String) (n : Nat) :
    fetch_retry fe false (o, n) = (o, n) := by
  cases o with
  | none => rfl
  | some h => simp [fetch_retry]

theorem fetch_stage1_noSel (fe : FetchEnv) : fetch_stage1 fe false = (fe.requestsResult, 0) := by
  simp [fetch_stage1]

theorem fetch_stage1_static_ok (fe : FetchEnv) (useSel : Bool)
    (h : pyStr fe.requestsResult = true) :
    fetch_stage1 fe useSel = (fe.requestsResult, 0) := by
  simp [fetch_stage1, h]

/-- Outcomes under which the rendered tier is attempted twice in one
fetch: static retrieval fails, and every Selenium attempt returns the same
short page. -/
def feDouble : FetchEnv := ⟨none, fun _ => some "short"⟩

/-- C4 counterexample: when static retrieval fails and the first rendered
attempt returns non-empty content shorter than 1000 characters, the thin
retry of lines 320-326 calls the rendered tier a second time — so a single
`_fetch_page` invocation makes two rendered attempts, refuting "the
rendered tier is attempted at most one time per page". -/
theorem C4_counterexample :
    (fetch_page feDouble true).2 = 2 ∧ ¬ (fetch_page feDouble true).2 ≤ 1 := by decide

/-- C4 as amended: per `_fetch_page` invocation the rendered tier is
attempted at most twice (not once); it is never attempted when Selenium is
disabled; and it is attempted at most once whenever static retrieval
returned truthy content.  There is no further alternation beyond these
attempts. -/
theorem C4_escalation_bounded :
    ∀ (fe : FetchEnv) (useSel : Bool),
      (fetch_page fe useSel).2 ≤ 2 ∧
      (useSel = false → (fetch_page fe useSel).2 = 0) ∧
      (pyStr fe.requestsResult = true → (fetch_page fe useSel).2 ≤ 1) := by
  intro fe useSel
  refine ⟨?_, ?_, ?_⟩
  · unfold fetch_page
    rcases hst : fetch_stage1 fe useSel with ⟨o, n⟩
    have hn : n ≤ 1 := by
      have hle := fetch_stage1_le fe useSel
      rw [hst] at hle
      exact hle
    have hr := fetch_retry_le fe useSel o n
    omega
  · intro hs
    subst hs
    unfold fetch_page
    rw [fetch_stage1_noSel, fetch_retry_noSel]
  · intro hpy
    unfold fetch_page
    rw [fetch_stage1_static_ok fe useSel hpy]
    rcases hr : fe.requestsResult with _ | h
    · rw [hr] at hpy
      exact absurd hpy (by simp [pyStr])
    · exact fetch_retry_le fe useSel (some h) 0

/-- Witness for C4 (amended): a truthy static result keeps the rendered
tier to at most one attempt. -/
theorem C4_escalation_bounded_witness :
    pyStr (FetchEnv.requestsResult ⟨some "x", fun _ => none⟩) = true ∧
    (fetch_page ⟨some "x", fun _ => none⟩ true).2 ≤ 1 :=
  ⟨by decide, (C4_escalation_bounded ⟨some "x", fun _ => none⟩ true).2.2 (by decide)⟩

/-! ## C7: link extraction — same host, capped at 20, document order -/

/-- C7: for every markup and base URL, `_extract_links` returns at most 20
URLs; it is exactly the first 20 of the accepted resolved anchors in
document order; and every returned URL has the same host (netloc) as the
base URL. -/
theorem C7_extract_links :
    ∀ (h : Html) (baseUrl : String) (visited : List String),
      (extract_links h baseUrl visited).length ≤ 20 ∧
      extract_links h baseUrl visited =
        ((h.anchors.map fun hr => urljoin baseUrl hr).filter
          fun u => link_accept visited (urlparse baseUrl).netloc u).take 20 ∧
      ∀ u ∈ extract_links h baseUrl visited,
        (urlparse u).netloc = (urlparse baseUrl).netloc := by
  intro h baseUrl visited
  refine ⟨?_, rfl, ?_⟩
  · exact List.length_take_le 20 _
  · intro u hu
    have hu' : u ∈ (h.anchors.map fun hr => urljoin baseUrl hr).filter
        (fun v => link_accept visited (urlparse baseUrl).netloc v) :=
      List.mem_of_mem_take hu
    have hacc : link_accept visited (urlparse baseUrl).netloc u = true :=
      List.of_mem_filter hu'
    unfold link_accept at hacc
    simp only [Bool.and_eq_true, beq_iff_eq] at hacc
    exact hacc.1.1

/-- Witness for C7 at a concrete page: the returned link shares the base
URL's host. -/
theorem C7_extract_links_witness :
    "https://a.com/jobs/1" ∈ extract_links ⟨fun _ => none, ["/jobs/1"]⟩ "https://a.com/x" [] ∧
    (urlparse "https://a.com/jobs/1").netloc = (urlparse "https://a.com/x").netloc :=
  ⟨by decide,
   (C7_extract_links ⟨fun _ => none, ["/jobs/1"]⟩ "https://a.com/x" []).2.2
     "https://a.com/jobs/1" (by decide)⟩

/-! ## C8: the date parser is total and rejects non-dates -/

/-- C8: `parse_date_string` is total (a Lean function), and for every
input that none of the five absolute formats parses and in which the
relative `"<N> <unit> ago"` pattern does not occur, it returns `none` —
it never raises (every failure path in lines 124-157 returns `None`). -/
theorem C8_parse_date_total (now : Int) (s : String)
    (habs : tryAbsoluteFormats s = none)
    (hrel : searchRel (s.toList.map Char.toLower) = none) :
    parse_date_string now s = none := by
  unfold parse_date_string
  rw [habs, hrel]
  split <;> rfl

/-- Witness for C8 on `"not a date"`. -/
theorem C8_parse_date_total_witness :
    tryAbsoluteFormats "not a date" = none ∧
    searchRel ("not a date".toList.map Char.toLower) = none ∧
    parse_date_string 0 "not a date" = none :=
  ⟨by decide, by decide, C8_parse_date_total 0 "not a date" (by decide) (by decide)⟩

/-! ## C3: termination and the page budget -/

/-- C3: the per-domain crawl loop is a total function satisfying exactly
the `while` guard's fixpoint equation (it iterates precisely while the
frontier is non-empty and fewer than `max_pages_per_domain = 30` pages are
processed); a domain pass never processes more than 30 pages; a pass whose
final frontier is non-empty processed exactly 30 pages; and a pass that
stopped short of 30 pages stopped because its frontier emptied. -/
theorem C3_budget :
    max_pages_per_domain = 30 ∧
    (∀ (env : Env) (s : CrawlState),
        crawlLoop env s =
          if s.queue ≠ [] ∧ s.pagesCrawled < max_pages_per_domain then
            crawlLoop env (step env s)
          else s) ∧
    (∀ (env : Env) (startUrl : String) (jobsAcc : List JobData),
        (run_domain env startUrl jobsAcc).pagesCrawled ≤ max_pages_per_domain) ∧
    (∀ (env : Env) (startUrl : String) (jobsAcc : List JobData),
        (run_domain env startUrl jobsAcc).queue ≠ [] →
        (run_domain env startUrl jobsAcc).pagesCrawled = max_pages_per_domain) ∧
    (∀ (env : Env) (startUrl : String) (jobsAcc : List JobData),
        (run_domain env startUrl jobsAcc).pagesCrawled < max_pages_per_domain →
        (run_domain env startUrl jobsAcc).queue = []) := by
  refine ⟨rfl, crawlLoop_eq, ?_, ?_, ?_⟩
  · intro env startUrl jobsAcc
    rw [run_domain_eq]
    exact crawlLoopAux_pages_le env _ _ (Nat.zero_le _)
  · intro env startUrl jobsAcc hq
    rw [run_domain_eq] at hq ⊢
    have hle := crawlLoopAux_pages_le env max_pages_per_domain (initState startUrl jobsAcc)
      (Nat.zero_le _)
    rcases crawlLoopAux_exit env max_pages_per_domain (initState startUrl jobsAcc)
      (Nat.sub_le _ _) with h | h
    · exact absurd h hq
    · omega
  · intro env startUrl jobsAcc hlt
    rw [run_domain_eq] at hlt ⊢
    rcases crawlLoopAux_exit env max_pages_per_domain (initState startUrl jobsAcc)
      (Nat.sub_le _ _) with h | h
    · exact h
    · exact absurd h (by omega)

/-- Witness for C3: a domain pass whose fetches all fail stops with fewer
than 30 pages, and indeed with an empty frontier. -/
theorem C3_budget_witness :
    (run_domain envStop "https://w.com/jobs" []).pagesCrawled < max_pages_per_domain ∧
    (run_domain envStop "https://w.com/jobs" []).queue = [] :=
  ⟨by decide, C3_budget.2.2.2.2 envStop "https://w.com/jobs" [] (by decide)⟩

/-! ## C9: every URL is fetched at most once per domain pass -/

/-- C9: the seed state satisfies the frontier/visited discipline (the seed
is enqueued and marked visited); every loop iteration preserves it (links
enter `visited` at enqueue time and only unvisited links are enqueued);
consequently, at the end of a domain pass the log of popped (fetched) URLs
has no duplicate, the frontier has no duplicate, and every frontier entry
is in `visited`. -/
theorem C9_no_refetch :
    (∀ (startUrl : String) (jobsAcc : List JobData), crawlInv (initState startUrl jobsAcc)) ∧
    (∀ (env : Env) (s : CrawlState), crawlInv s → crawlInv (step env s)) ∧
    (∀ (env : Env) (startUrl : String) (jobsAcc : List JobData),
        (run_domain env startUrl jobsAcc).fetched.Nodup ∧
        (run_domain env startUrl jobsAcc).queue.Nodup ∧
        ∀ u ∈ (run_domain env startUrl jobsAcc).queue,
          u ∈ (run_domain env startUrl jobsAcc).visited) := by
  refine ⟨initState_inv, step_inv, ?_⟩
  intro env startUrl jobsAcc
  have h := crawlLoopAux_inv env max_pages_per_domain (initState startUrl jobsAcc)
    (initState_inv startUrl jobsAcc)
  rw [← run_domain_eq] at h
  obtain ⟨hnd, hsub⟩ := h
  rw [List.nodup_append] at hnd
  exact ⟨hnd.1, hnd.2.1, fun v hv => hsub v (List.mem_append_right _ hv)⟩

/-- Witness for C9: one step from a concrete seed state preserves the
discipline. -/
theorem C9_no_refetch_witness :
    crawlInv (step envStop (initState "https://w.com/jobs" [])) :=
  C9_no_refetch.2.1 envStop (initState "https://w.com/jobs" []) ⟨by decide, by decide⟩

/-! ## C10: the page counter counts every popped URL, failures included -/

/-- C10: at the end of a domain pass the page counter equals the number of
URLs popped from the frontier; and a loop iteration popping a URL whose
fetch fails (both tiers absent) still increments the counter by one and
logs the URL as fetched — failed pages consume the budget exactly like
successful ones. -/
theorem C10_counter_counts_failures :
    (∀ (env : Env) (startUrl : String) (jobsAcc : List JobData),
        (run_domain env startUrl jobsAcc).pagesCrawled
          = (run_domain env startUrl jobsAcc).fetched.length) ∧
    (∀ (env : Env) (s : CrawlState) (c : String) (rest : List String),
        s.queue = c :: rest → fetch_page_full env c = none →
        (step env s).pagesCrawled = s.pagesCrawled + 1 ∧
        (step env s).fetched = s.fetched ++ [c]) := by
  constructor
  · intro env startUrl jobsAcc
    rw [run_domain_eq]
    exact crawlLoopAux_pages_fetched env _ _ rfl
  · intro env s c rest hq _hf
    exact ⟨step_cons_pages env s c rest hq, step_cons_fetched env s c rest hq⟩

/-- Witness for C10: in `envStop` the seed's fetch fails on both tiers,
and the counter still increments. -/
theorem C10_counter_counts_failures_witness :
    fetch_page_full envStop "https://w.com/jobs" = none ∧
    ((step envStop (initState "https://w.com/jobs" [])).pagesCrawled
        = (initState "https://w.com/jobs" []).pagesCrawled + 1 ∧
      (step envStop (initState "https://w.com/jobs" [])).fetched
        = (initState "https://w.com/jobs" []).fetched ++ ["https://w.com/jobs"]) :=
  ⟨by decide,
   C10_counter_counts_failures.2 envStop (initState "https://w.com/jobs" [])
     "https://w.com/jobs" [] rfl (by decide)⟩

/-! ## C6: a record whose push fails is dropped, not retained -/

/-- Environment for the C6 scenario: the page parses fully but the
ingestion endpoint rejects every record. -/
def envPushFail : Env where
  soup _ := pageFull
  ollamaRaw _ _ := none
  now := 0
  fetchEnv _ := fetchX
  useSelenium := false
  push _ := false

/-- C6 counterexample: a record is parsed and handed to the push once; the
push fails; and the accumulation list of the finished domain pass is empty
— the record is dropped, not "retained locally", because line 488 appends
to `scraped_jobs` only inside the success branch of the push. -/
theorem C6_counterexample :
    parse_job_page envPushFail "x" "https://a.com/jobs" = some jobFull ∧
    envPushFail.push jobFull = false ∧
    (run_domain envPushFail "https://a.com/jobs" []).pushed = [jobFull] ∧
    (run_domain envPushFail "https://a.com/jobs" []).scrapedJobs = [] := by decide

/-- C6 as amended: when the push of a parsed record fails, the loop
iteration hands the record to the push exactly once (no retry), does not
increment the success counter, and does NOT retain the record in the local
accumulation list — the record is only appended on a successful push. -/
theorem C6_push_failure_drops (env : Env) (s : CrawlState) (c : String) (rest : List String)
    (htmlContent : String) (job : JobData)
    (hq : s.queue = c :: rest)
    (hf : fetch_page_full env c = some htmlContent)
    (hne : htmlContent ≠ "")
    (hp : parse_job_page env htmlContent c = some job)
    (hpush : env.push job = false) :
    (step env s).scrapedJobs = s.scrapedJobs ∧
    (step env s).pushed = s.pushed ++ [job] ∧
    (step env s).successfulJobs = s.successfulJobs := by
  rw [step_cons_eq env s c rest hq]
  show (step_body env c _).scrapedJobs = s.scrapedJobs ∧
    (step_body env c _).pushed = s.pushed ++ [job] ∧
    (step_body env c _).successfulJobs = s.successfulJobs
  unfold step_body
  rw [hf]
  simp only [fetch_branch]
  rw [if_pos hne]
  unfold process_page
  rw [(enqueue_links_preserves _ _).2.2.1, (enqueue_links_preserves _ _).2.2.2.1,
    (enqueue_links_preserves _ _).2.2.2.2]
  unfold record_job
  rw [hp]
  simp only [record_push]
  rw [if_neg (by rw [hpush]; exact Bool.false_ne_true)]
  exact ⟨rfl, rfl, rfl⟩

/-- Witness for C6 (amended) at the C6 scenario. -/
theorem C6_push_failure_drops_witness :
    (step envPushFail (initState "https://a.com/jobs" [])).scrapedJobs
        = (initState "https://a.com/jobs" []).scrapedJobs ∧
    (step envPushFail (initState "https://a.com/jobs" [])).pushed
        = (initState "https://a.com/jobs" []).pushed ++ [jobFull] ∧
    (step envPushFail (initState "https://a.com/jobs" [])).successfulJobs
        = (initState "https://a.com/jobs" []).successfulJobs :=
  C6_push_failure_drops envPushFail (initState "https://a.com/jobs" []) "https://a.com/jobs" []
    "x" jobFull rfl (by decide) (by decide) (by decide) (by decide)

end JobScraper
